import Mathlib

/-!
# Vault secrets-plugin template: configuration, roles, client cache, credentials

A shallow embedding of the request handlers of the Go package `example`
(`backend.go`, `client.go`, `path_config.go`, `path_roles.go`,
`path_credentials.go`) and the properties proved about them.

Conventions of the embedding

* A Go pointer that may be nil is an `Option`; a Go `(value, error)` pair whose
  value is only meaningful when the error is nil is an `Except Error value`.
  A handler's `(*logical.Response, error)` pair is kept as two options, since
  the handlers return every combination of them.
* `time.Duration` is an `Int` count of nanoseconds, and the one arithmetic
  operation the package performs on it (multiplication by `time.Second`)
  wraps modulo `2^64` as Go's `int64` does.
* `logical.Storage` is the in-memory key-value store (`Get`, `Put`, `Delete`
  never fail); a stored value is the JSON document `StorageEntryJSON` wrote.
* `framework.FieldData` holds the parsed value of every field that was
  supplied in the request (`GetOk` reports `ok` exactly for those).
-/

namespace VaultPlugin

/-! ## Go runtime and SDK types -/

/-- Go `error` values, identified by their message. -/
abbrev Error := String

/-- Go `time.Duration`: a signed 64-bit number of nanoseconds. -/
abbrev Duration := Int

/-- Go `time.Second`. -/
def Second : Duration := 1000000000

/-- Two's-complement wrap-around of a mathematical integer into `int64`. -/
def wrapInt64 (x : Int) : Int :=
  (x + 9223372036854775808) % 18446744073709551616 - 9223372036854775808

/-- Go `time.Duration(n) * time.Second` for an `int` n: an `int64` product. -/
def secondsToDuration (n : Int) : Duration := wrapInt64 (n * Second)

/-- Values held in a response map (`map[string]interface{}`). A `seconds`
value stands for the `float64` that `Duration.Seconds` returns, namely
`float64(sec) + float64(nsec)/1e9`; with `nsec = 0` and `|sec| < 2^53` that
float is the integer `sec` exactly. -/
inductive Value where
  | str (s : String)
  | seconds (sec nsec : Int)
  deriving DecidableEq, Repr

/-- Go `Duration.Seconds`: `sec := d / Second; nsec := d % Second` (both
truncating toward zero), returned as `float64(sec) + float64(nsec)/1e9`. -/
def Duration.Seconds (d : Duration) : Value :=
  Value.seconds (Int.tdiv d Second) (Int.tmod d Second)

/-- Go `logical.Secret`, reduced to the fields the package touches. -/
structure Secret where
  TTL : Duration := 0
  MaxTTL : Duration := 0
  InternalData : List (String × Value) := []
  deriving DecidableEq, Repr

/-- Go `logical.Response`, reduced to the fields the package touches. A Go map
literal is kept as the list of its entries in source order. -/
structure Response where
  Secret : Option Secret := none
  Data : List (String × Value) := []
  deriving DecidableEq, Repr

/-- Go `logical.ErrorResponse`: a response whose only datum is `error`. -/
def ErrorResponse (text : String) : Response :=
  { Secret := none, Data := [("error", Value.str text)] }

/-- Go `Response.IsError`: exactly one datum, stored under `error`. -/
def Response.IsError (r : Response) : Bool :=
  r.Data.length == 1 && (r.Data.lookup "error").isSome

/-- Go `logical.Operation`. -/
inductive Operation where
  | CreateOperation
  | ReadOperation
  | UpdateOperation
  | DeleteOperation
  | ListOperation
  deriving DecidableEq, Repr

/-! ## Data model of the package -/

/-- Go `roleEntry` (path_roles.go). -/
structure roleEntry where
  Username : String := ""
  UserID : Int := 0
  Token : String := ""
  TokenID : String := ""
  TTL : Duration := 0
  MaxTTL : Duration := 0
  deriving DecidableEq, Repr

/-- Go `config` (path_config.go). -/
structure config where
  Username : String := ""
  Password : String := ""
  URL : String := ""
  deriving DecidableEq, Repr

/-- Go `exampleClient` (client.go): a struct without fields. -/
structure exampleClient where
  deriving DecidableEq, Repr

/-- Go `configStoragePath`. -/
def configStoragePath : String := "config"

/-- The JSON document held by a storage entry: the encoding of a `roleEntry`
or of a `config`, the two structs the package passes to `StorageEntryJSON`. -/
inductive Document where
  | role (r : roleEntry)
  | config (c : config)
  deriving DecidableEq, Repr

/-- Go `logical.StorageEntry`. -/
structure StorageEntry where
  Key : String
  Value : Document
  deriving DecidableEq, Repr

/-- Go `logical.StorageEntryJSON(k, v)` for a role. -/
def StorageEntryJSON_role (k : String) (v : roleEntry) : Except Error (Option StorageEntry) :=
  .ok (some { Key := k, Value := Document.role v })

/-- Go `logical.StorageEntryJSON(k, v)` for a configuration. -/
def StorageEntryJSON_config (k : String) (v : config) : Except Error (Option StorageEntry) :=
  .ok (some { Key := k, Value := Document.config v })

/-- Go `entry.DecodeJSON(&role)` into a zero `roleEntry`. JSON decoding fills
the fields whose keys occur in the document and ignores the other keys; the
only key the two structs share is `username`. -/
def StorageEntry.DecodeJSON_role (entry : StorageEntry) : Except Error roleEntry :=
  match entry.Value with
  | Document.role r => .ok r
  | Document.config c => .ok { Username := c.Username }

/-- Go `entry.DecodeJSON(c)` into a zero `config`. -/
def StorageEntry.DecodeJSON_config (entry : StorageEntry) : Except Error config :=
  match entry.Value with
  | Document.config c => .ok c
  | Document.role r => .ok { Username := r.Username }

/-- Go `logical.Storage`, in memory: what each key holds. -/
structure Storage where
  data : String → Option Document

/-- The storage that holds nothing. -/
def Storage.empty : Storage := { data := fun _ => none }

/-- Go `Storage.Get`. -/
def Storage.Get (s : Storage) (key : String) : Except Error (Option StorageEntry) :=
  .ok ((s.data key).map fun v => { Key := key, Value := v })

/-- Go `Storage.Put`. -/
def Storage.Put (s : Storage) (entry : StorageEntry) : Except Error Storage :=
  .ok { data := fun k => if k = entry.Key then some entry.Value else s.data k }

/-- Go `Storage.Delete`. -/
def Storage.Delete (s : Storage) (key : String) : Except Error Storage :=
  .ok { data := fun k => if k = key then none else s.data k }

/-- Go `logical.Request`, reduced to the fields the package reads. -/
structure Request where
  Operation : Operation
  Path : String
  Storage : Storage

/-- Go `framework.FieldData` after parsing against the schemas of the three
paths: each field is `some v` when the request supplied it (so `GetOk`
returns `v, true`) and `none` otherwise. `name` is a `TypeLowerCaseString`,
`username`, `password` and `url` are `TypeString`, `ttl` and `max_ttl` are
`TypeDurationSecond` (a Go `int` number of seconds). -/
structure FieldData where
  name : Option String := none
  username : Option String := none
  password : Option String := none
  url : Option String := none
  ttl : Option Int := none
  max_ttl : Option Int := none
  deriving DecidableEq, Repr

/-- Go `d.Get("name").(string)`: the supplied value, else the zero string. -/
def FieldData.Get_name (d : FieldData) : String := d.name.getD ""

/-- Collaborator calls a handler makes, recorded in order (most recent first). -/
inductive Call where
  | getClient
  | createToken (username : String)
  deriving DecidableEq, Repr

/-- Go `exampleBackend` (backend.go): the cached client. The lock is not
represented (handlers are run one at a time); `calls` is a ghost record of the
client-cache lookups and sign-ins performed so far. -/
structure exampleBackend where
  client : Option exampleClient := none
  calls : List Call := []
  deriving DecidableEq, Repr

/-- Go `backend()`: a fresh backend, no client cached. -/
def backend : exampleBackend := {}

/-- What a handler call does: it returns a `(*logical.Response, error)` pair,
leaving the storage and the backend in some state, or it panics. -/
inductive Result where
  | returned (resp : Option Response) (err : Option Error) (s : Storage) (b : exampleBackend)
  | panicked (reason : String)

/-! ## backend.go -/

/-- Go `exampleBackend.reset`: takes and releases the lock; the assignment
`b.client = nil` is commented out in the source. -/
def exampleBackend.reset (b : exampleBackend) : exampleBackend := b

/-- Go `exampleBackend.invalidate`. -/
def exampleBackend.invalidate (b : exampleBackend) (key : String) : exampleBackend :=
  if key = "config" then b.reset else b

/-- Go `exampleBackend.getClient`: the cached client if there is one,
otherwise the error `need to return client`. -/
def exampleBackend.getClient (b : exampleBackend) (_s : Storage) :
    Except Error exampleClient × exampleBackend :=
  let b := { b with calls := Call.getClient :: b.calls }
  match b.client with
  | some c => (.ok c, b)
  | none => (.error "need to return client", b)

/-! ## client.go -/

/-- Go `newClient`. -/
def newClient (c : Option config) : Except Error exampleClient :=
  match c with
  | none => .error "client configuration was nil"
  | some c =>
    if c.Username = "" then .error "client username was not defined"
    else if c.Password = "" then .error "client password was not defined"
    else if c.URL = "" then .error "client URL was not defined"
    else .ok {}

/-! ## path_roles.go -/

/-- Go `roleEntry.toResponseData`. -/
def roleEntry.toResponseData (r : roleEntry) : List (String × Value) :=
  [("ttl", Duration.Seconds r.TTL),
   ("max_ttl", Duration.Seconds r.MaxTTL),
   ("username", Value.str r.Username)]

/-- Go `exampleBackend.getRole`. -/
def exampleBackend.getRole (_b : exampleBackend) (s : Storage) (name : String) :
    Except Error (Option roleEntry) :=
  if name = "" then .error "missing role name"
  else
    match s.Get ("role/" ++ name) with
    | .error err => .error err
    | .ok none => .ok none
    | .ok (some entry) =>
      match entry.DecodeJSON_role with
      | .error err => .error err
      | .ok role => .ok (some role)

/-- Go `exampleBackend.pathRolesRead`. -/
def exampleBackend.pathRolesRead (b : exampleBackend) (req : Request) (d : FieldData) : Result :=
  match b.getRole req.Storage d.Get_name with
  | .error err => .returned none (some err) req.Storage b
  | .ok none => .returned none none req.Storage b
  | .ok (some entry) => .returned (some { Data := entry.toResponseData }) none req.Storage b

/-- The three conditional assignments of `pathRolesWrite` (lines 137-147):
each supplied field overwrites the role's field, `ttl` and `max_ttl` after
conversion `time.Duration(v) * time.Second`. -/
def applyRoleFields (re : roleEntry) (d : FieldData) : roleEntry :=
  let re := match d.username with
    | some username => { re with Username := username }
    | none => re
  let re := match d.ttl with
    | some ttlRaw => { re with TTL := secondsToDuration ttlRaw }
    | none => re
  let re := match d.max_ttl with
    | some maxTTLRaw => { re with MaxTTL := secondsToDuration maxTTLRaw }
    | none => re
  re

/-- Go `exampleBackend.pathRolesWrite`. -/
def exampleBackend.pathRolesWrite (b : exampleBackend) (req : Request) (d : FieldData) : Result :=
  match d.name with
  | none => .returned (some (ErrorResponse "missing role name")) none req.Storage b
  | some name =>
    match b.getRole req.Storage name with
    | .error err => .returned none (some err) req.Storage b
    | .ok stored =>
      let re : roleEntry := match stored with
        | some re => re
        | none => {}
      let re := applyRoleFields re d
      if re.Username = "" then
        .returned none (some "missing username in role") req.Storage b
      else if re.MaxTTL ≠ 0 ∧ re.TTL > re.MaxTTL then
        .returned (some (ErrorResponse "ttl cannot be greater than max_ttl")) none req.Storage b
      else
        match StorageEntryJSON_role ("role/" ++ name) re with
        | .error err => .returned none (some err) req.Storage b
        | .ok none =>
          .returned none (some "failed to create storage entry for role") req.Storage b
        | .ok (some entry) =>
          match req.Storage.Put entry with
          | .error err => .returned none (some err) req.Storage b
          | .ok s => .returned none none s b

/-- Go `exampleBackend.pathRolesDelete`. -/
def exampleBackend.pathRolesDelete (b : exampleBackend) (req : Request) (d : FieldData) : Result :=
  match req.Storage.Delete ("role/" ++ d.Get_name) with
  | .error err => .returned none (some ("error deleting hashiCups role: " ++ err)) req.Storage b
  | .ok s => .returned none none s b

/-! ## path_config.go -/

/-- Go `getConfig`. -/
def getConfig (s : Storage) : Except Error (Option config) :=
  match s.Get configStoragePath with
  | .error err => .error err
  | .ok none => .ok none
  | .ok (some entry) =>
    match entry.DecodeJSON_config with
    | .error err => .error ("error reading root configuration: " ++ err)
    | .ok c => .ok (some c)

/-- Go `exampleBackend.pathConfigExistenceCheck`. -/
def exampleBackend.pathConfigExistenceCheck (_b : exampleBackend) (req : Request)
    (_data : FieldData) : Except Error Bool :=
  match req.Storage.Get req.Path with
  | .error err => .error ("existence check failed: " ++ err)
  | .ok out => .ok out.isSome

/-- Go `exampleBackend.pathConfigRead`. The source reads `config.Username`
without testing `config` against nil, so an absent configuration is a nil
pointer dereference. -/
def exampleBackend.pathConfigRead (b : exampleBackend) (req : Request) (_data : FieldData) :
    Result :=
  match getConfig req.Storage with
  | .error err => .returned none (some err) req.Storage b
  | .ok none => .panicked "runtime error: invalid memory address or nil pointer dereference"
  | .ok (some config) =>
    .returned
      (some { Data := [("username", Value.str config.Username), ("url", Value.str config.URL)] })
      none req.Storage b

/-- The three conditional assignments of `pathConfigWrite` (lines 124-135):
each supplied field overwrites the configuration's field. -/
def applyConfigFields (c : config) (data : FieldData) : config :=
  let c := match data.username with
    | some u => { c with Username := u }
    | none => c
  let c := match data.password with
    | some p => { c with Password := p }
    | none => c
  let c := match data.url with
    | some u => { c with URL := u }
    | none => c
  c

/-- Go `exampleBackend.pathConfigWrite`. -/
def exampleBackend.pathConfigWrite (b : exampleBackend) (req : Request) (data : FieldData) :
    Result :=
  match getConfig req.Storage with
  | .error err => .returned none (some err) req.Storage b
  | .ok stored =>
    let loaded : Except Error config := match stored with
      | some c => .ok c
      | none =>
        if req.Operation ≠ Operation.CreateOperation then
          .error "config not found during update operation"
        else .ok {}
    match loaded with
    | .error err => .returned none (some err) req.Storage b
    | .ok c =>
      let c := applyConfigFields c data
      if c.Username = "" then
        .returned none (some "missing username in configuration") req.Storage b
      else if c.Password = "" then
        .returned none (some "missing password in configuration") req.Storage b
      else if c.URL = "" then
        .returned none (some "missing url in configuration") req.Storage b
      else
        match StorageEntryJSON_config configStoragePath c with
        | .error err => .returned none (some err) req.Storage b
        | .ok none => .panicked "runtime error: invalid memory address or nil pointer dereference"
        | .ok (some entry) =>
          match req.Storage.Put entry with
          | .error err => .returned none (some err) req.Storage b
          | .ok s => .returned none none s b.reset

/-- Go `exampleBackend.pathConfigDelete`. -/
def exampleBackend.pathConfigDelete (b : exampleBackend) (req : Request) (_data : FieldData) :
    Result :=
  match req.Storage.Delete configStoragePath with
  | .ok s => .returned none none s b.reset
  | .error err => .returned none (some err) req.Storage b

/-! ## path_credentials.go -/

/-- Modelled from the spec: the Go type `tokenData` is used by
path_credentials.go but declared in none of the package's files; the spec's
ExternalToken has the four string fields token, token_id, user_id and
username. -/
structure tokenData where
  Token : String := ""
  TokenID : String := ""
  UserID : String := ""
  Username : String := ""
  deriving DecidableEq, Repr

/-- The package-level Go function `createToken(ctx, client, username)`, the
sign-in against the external service. It is called by path_credentials.go
but declared in none of the package's files, so the handlers take it as a
parameter: it returns `(*tokenData, error)`. -/
abbrev SignIn := exampleClient → String → Except Error (Option tokenData)

/-- Go `framework.Secret`, the value of `b.tokenSecret()`; that method is
declared in none of the package's files, so the handlers take its value as a
parameter. `SecretType` is the Go field `Type`. -/
structure FrameworkSecret where
  SecretType : String := ""
  DefaultDuration : Duration := 0
  deriving DecidableEq, Repr

/-- Go `framework.Secret.Response(data, internal)`: the internal data are a
copy of `internal` with the secret's type added under `secret_type`. -/
def FrameworkSecret.Response (t : FrameworkSecret) (data internal : List (String × Value)) :
    Response :=
  { Secret := some { TTL := t.DefaultDuration, MaxTTL := 0,
                     InternalData := internal ++ [("secret_type", Value.str t.SecretType)] },
    Data := data }

/-- Go method `exampleBackend.createToken`. -/
def exampleBackend.createToken (b : exampleBackend) (createToken : SignIn) (s : Storage)
    (roleEntry : roleEntry) : Except Error tokenData × exampleBackend :=
  match b.getClient s with
  | (.error err, b) => (.error err, b)
  | (.ok client, b) =>
    let b := { b with calls := Call.createToken roleEntry.Username :: b.calls }
    match createToken client roleEntry.Username with
    | .error err => (.error ("error creating token: " ++ err), b)
    | .ok none => (.error "error creating token", b)
    | .ok (some token) => (.ok token, b)

/-- The response `createUserCreds` assembles in lines 62-77 of
path_credentials.go: public data, internal data, then the role's lease. -/
def credsResponse (tokenSecret : FrameworkSecret) (token : tokenData) (role : roleEntry) :
    Response :=
  let resp := tokenSecret.Response
    [("token", Value.str token.Token),
     ("token_id", Value.str token.TokenID),
     ("user_id", Value.str token.UserID),
     ("username", Value.str token.Username)]
    [("token", Value.str token.Token)]
  let resp : Response :=
    if role.TTL > 0 then { resp with Secret := resp.Secret.map fun x => { x with TTL := role.TTL } }
    else resp
  let resp : Response :=
    if role.MaxTTL > 0 then
      { resp with Secret := resp.Secret.map fun x => { x with MaxTTL := role.MaxTTL } }
    else resp
  resp

/-- Go `exampleBackend.createUserCreds`. The source builds `resp` and then
executes `return nil, nil`; its `return resp, nil` is commented out. -/
def exampleBackend.createUserCreds (b : exampleBackend) (createToken : SignIn)
    (tokenSecret : FrameworkSecret) (req : Request) (role : roleEntry) : Result :=
  match b.createToken createToken req.Storage role with
  | (.error err, b) => .returned none (some err) req.Storage b
  | (.ok token, b) =>
    let _resp := credsResponse tokenSecret token role
    .returned none none req.Storage b

/-- Go `exampleBackend.pathCredentialsRead`. -/
def exampleBackend.pathCredentialsRead (b : exampleBackend) (createToken : SignIn)
    (tokenSecret : FrameworkSecret) (req : Request) (d : FieldData) : Result :=
  let roleName := d.Get_name
  match b.getRole req.Storage roleName with
  | .error err => .returned none (some ("error retrieving role: " ++ err)) req.Storage b
  | .ok none => .returned none (some "error retrieving role: role is nil") req.Storage b
  | .ok (some roleEntry) => b.createUserCreds createToken tokenSecret req roleEntry

/-! ## Vocabulary of the statements -/

/-- The role stored under `role/name`, as `getRole` decodes it. -/
def storedRole (s : Storage) (name : String) : Option roleEntry :=
  match s.data ("role/" ++ name) with
  | none => none
  | some (Document.role r) => some r
  | some (Document.config c) => some { Username := c.Username }

/-- The role `pathRolesWrite` validates: the stored role, or a blank one, with
the supplied fields applied. -/
def mergedRole (s : Storage) (name : String) (d : FieldData) : roleEntry :=
  applyRoleFields ((storedRole s name).getD {}) d

/-- The configuration stored under `config`, as `getConfig` decodes it. -/
def storedConfig (s : Storage) : Option config :=
  match s.data configStoragePath with
  | none => none
  | some (Document.config c) => some c
  | some (Document.role r) => some { Username := r.Username }

/-- The configuration `pathConfigWrite` validates: the stored configuration, or
a blank one, with the supplied fields applied. -/
def mergedConfig (s : Storage) (data : FieldData) : config :=
  applyConfigFields ((storedConfig s).getD {}) data

/-- A handler call succeeded: it returned a nil error and no error response. -/
def Result.succeeded : Result → Bool
  | .returned none none _ _ => true
  | .returned (some r) none _ _ => !r.IsError
  | .returned _ (some _) _ _ => false
  | .panicked _ => false

/-- The values a `framework.TypeDurationSecond` field can hold. The framework
parses the raw input to a `time.Duration`, keeps `int(dur.Seconds())` and
rejects a negative result, so a parsed value lies between 0 and the whole
seconds of the largest duration, 9223372036. -/
def isDurationSecond (v : Int) : Prop := 0 ≤ v ∧ v ≤ 9223372036

instance (v : Int) : Decidable (isDurationSecond v) := by
  unfold isDurationSecond
  infer_instance

/-- The response of a handler call that returned. -/
def Result.resp : Result → Option Response
  | .returned resp _ _ _ => resp
  | .panicked _ => none

/-- The error of a handler call that returned. -/
def Result.err : Result → Option Error
  | .returned _ err _ _ => err
  | .panicked _ => none

/-- The storage a handler call left behind, when it returned. -/
def Result.storage : Result → Option Storage
  | .returned _ _ s _ => some s
  | .panicked _ => none

/-- The backend a handler call left behind, when it returned. -/
def Result.backend : Result → Option exampleBackend
  | .returned _ _ _ b => some b
  | .panicked _ => none

/-! ## Sample requests -/

/-- A create request on the role path `role/r1` against the empty storage. -/
def r1Request : Request := ⟨Operation.CreateOperation, "role/r1", Storage.empty⟩

/-- The fields of scenario 4: role r1 with ttl 100 and max_ttl 50, no username. -/
def r1Fields : FieldData := { name := some "r1", ttl := some 100, max_ttl := some 50 }

/-- The fields of scenario 4 together with a username. -/
def r1FieldsWithUser : FieldData :=
  { name := some "r1", username := some "svc-r1", ttl := some 100, max_ttl := some 50 }

/-- A create request on the role path `role/reader` against the empty storage. -/
def readerRequest : Request := ⟨Operation.CreateOperation, "role/reader", Storage.empty⟩

/-- The role fields of scenario 1: reader, svc-reader, ttl 3600, max_ttl 7200. -/
def readerFields : FieldData :=
  { name := some "reader", username := some "svc-reader", ttl := some 3600, max_ttl := some 7200 }

/-- The role that scenario 1 stores. -/
def readerRole : roleEntry :=
  { Username := "svc-reader", TTL := 3600000000000, MaxTTL := 7200000000000 }

/-- The configuration fields of scenario 1. -/
def aliceFields : FieldData :=
  { username := some "alice", password := some "secret", url := some "https://api.example.com" }

/-- The configuration that scenario 1 stores. -/
def aliceConfig : config :=
  { Username := "alice", Password := "secret", URL := "https://api.example.com" }

/-- A create request on the path `config` against the empty storage. -/
def configCreateRequest : Request := ⟨Operation.CreateOperation, "config", Storage.empty⟩

/-- The storage after scenario 1's configuration write. -/
def aliceStorage : Storage :=
  { data := fun k => if k = configStoragePath then some (Document.config aliceConfig)
                     else Storage.empty.data k }

/-- The storage after scenario 1's configuration write and role write. -/
def scenario1Storage : Storage :=
  { data := fun k => if k = "role/" ++ "reader" then some (Document.role readerRole)
                     else aliceStorage.data k }

/-- A backend whose client field holds a client. -/
def cachedBackend : exampleBackend := { client := some {} }

/-- A sign-in that succeeds with a fixed token for the given username. -/
def signInOk : SignIn := fun _ username =>
  .ok (some { Token := "tok-1", TokenID := "id-1", UserID := "7", Username := username })

/-- The storage states reachable from the empty storage by role writes and
role deletes, whatever the backend, the request and its fields. -/
inductive RolesReachable : Storage → Prop where
  | empty : RolesReachable Storage.empty
  | write (b : exampleBackend) (req : Request) (d : FieldData) (s' : Storage) :
      RolesReachable req.Storage → (b.pathRolesWrite req d).storage = some s' →
      RolesReachable s'
  | delete (b : exampleBackend) (req : Request) (d : FieldData) (s' : Storage) :
      RolesReachable req.Storage → (b.pathRolesDelete req d).storage = some s' →
      RolesReachable s'

/-- The lease bound of a role: a non-empty username, and `ttl <= max_ttl`
whenever both are positive. -/
def roleEntry.WellFormed (r : roleEntry) : Prop :=
  r.Username ≠ "" ∧ (0 < r.MaxTTL → 0 < r.TTL → r.TTL ≤ r.MaxTTL)

instance (r : roleEntry) : Decidable r.WellFormed := by
  unfold roleEntry.WellFormed
  infer_instance

/-- The backends reachable from `backend()`: the fresh backend, and whatever
backend `invalidate`, `getClient` or a request handler that returned leaves
behind, for every key, storage, request, fields and sign-in function. -/
inductive BackendReachable : exampleBackend → Prop where
  | fresh : BackendReachable backend
  | invalidate (b : exampleBackend) (key : String) :
      BackendReachable b → BackendReachable (b.invalidate key)
  | getClient (b : exampleBackend) (s : Storage) :
      BackendReachable b → BackendReachable (b.getClient s).2
  | pathConfigRead (b : exampleBackend) (req : Request) (d : FieldData) (b' : exampleBackend) :
      BackendReachable b → (b.pathConfigRead req d).backend = some b' → BackendReachable b'
  | pathConfigWrite (b : exampleBackend) (req : Request) (d : FieldData) (b' : exampleBackend) :
      BackendReachable b → (b.pathConfigWrite req d).backend = some b' → BackendReachable b'
  | pathConfigDelete (b : exampleBackend) (req : Request) (d : FieldData) (b' : exampleBackend) :
      BackendReachable b → (b.pathConfigDelete req d).backend = some b' → BackendReachable b'
  | pathRolesRead (b : exampleBackend) (req : Request) (d : FieldData) (b' : exampleBackend) :
      BackendReachable b → (b.pathRolesRead req d).backend = some b' → BackendReachable b'
  | pathRolesWrite (b : exampleBackend) (req : Request) (d : FieldData) (b' : exampleBackend) :
      BackendReachable b → (b.pathRolesWrite req d).backend = some b' → BackendReachable b'
  | pathRolesDelete (b : exampleBackend) (req : Request) (d : FieldData) (b' : exampleBackend) :
      BackendReachable b → (b.pathRolesDelete req d).backend = some b' → BackendReachable b'
  | pathCredentialsRead (b : exampleBackend) (createToken : SignIn)
      (tokenSecret : FrameworkSecret) (req : Request) (d : FieldData) (b' : exampleBackend) :
      BackendReachable b →
      (b.pathCredentialsRead createToken tokenSecret req d).backend = some b' →
      BackendReachable b'

/-- The configuration stored before a write, or the blank one when none is
stored: the value the supplied fields are merged onto. -/
def priorConfig (s : Storage) : config :=
  match s.data configStoragePath with
  | none => {}
  | some (Document.config c) => c
  | some (Document.role r) => { Username := r.Username }

/-- An update request on the path `config` against scenario 1's stored
configuration. -/
def configUpdateRequest : Request := ⟨Operation.UpdateOperation, "config", aliceStorage⟩

/-- Fields of an update that supplies a new url only. -/
def newUrlFields : FieldData := { url := some "https://new.example.com" }

/-- The backend after a credentials request for scenario 1's role on a fresh
backend: its call record holds the one `getClient` call. -/
def backendAfterCreds : exampleBackend := { client := none, calls := [Call.getClient] }

/-! ## Lemmas on storage access -/

theorem getRole_eq_storedRole (b : exampleBackend) (s : Storage) (name : String)
    (hne : name ≠ "") : b.getRole s name = .ok (storedRole s name) := by
  unfold exampleBackend.getRole storedRole Storage.Get StorageEntry.DecodeJSON_role
  rw [if_neg hne]
  cases h : s.data ("role/" ++ name) with
  | none => simp
  | some v => cases v <;> simp

theorem getRole_empty_name (b : exampleBackend) (s : Storage) :
    b.getRole s "" = .error "missing role name" := by
  simp [exampleBackend.getRole]

theorem getConfig_eq_storedConfig (s : Storage) : getConfig s = .ok (storedConfig s) := by
  unfold getConfig storedConfig Storage.Get StorageEntry.DecodeJSON_config
  cases h : s.data configStoragePath with
  | none => simp
  | some v => cases v <;> simp

theorem role_key_injective (a b : String) (h : "role/" ++ a = "role/" ++ b) : a = b := by
  have h2 := congrArg String.data h
  simp only [String.data_append] at h2
  exact String.ext (List.append_cancel_left h2)

theorem storedRole_put (s : Storage) (name : String) (re : roleEntry) (n : String) :
    storedRole { data := fun k => if k = "role/" ++ name then some (Document.role re)
                                  else s.data k } n
      = if n = name then some re else storedRole s n := by
  unfold storedRole
  by_cases h : n = name
  · subst h; simp
  · have h2 : "role/" ++ n ≠ "role/" ++ name := fun e => h (role_key_injective _ _ e)
    simp [h, h2]

/-! ## Roles: writes that break the lease bound -/

/-- C1 (as amended). When the merged role has `max_ttl > 0` and
`ttl > max_ttl`, `pathRolesWrite` never stores anything: it returns the error
`missing role name` for the empty name, the error `missing username in role`
when the merged username is empty, and otherwise the error response
`ttl cannot be greater than max_ttl`; the storage and the backend are left as
they were, and a following read of a non-empty name returns the previously
stored role, or nothing if none was stored. -/
theorem pathRolesWrite_ttl_above_max_rejected (b : exampleBackend) (req : Request)
    (d : FieldData) (name : String)
    (hname : d.name = some name)
    (hmax : 0 < (mergedRole req.Storage name d).MaxTTL)
    (hgt : (mergedRole req.Storage name d).MaxTTL < (mergedRole req.Storage name d).TTL) :
    b.pathRolesWrite req d =
      (if name = "" then
        Result.returned none (some "missing role name") req.Storage b
      else if (mergedRole req.Storage name d).Username = "" then
        Result.returned none (some "missing username in role") req.Storage b
      else
        Result.returned (some (ErrorResponse "ttl cannot be greater than max_ttl")) none
          req.Storage b)
    ∧ (b.pathRolesWrite req d).storage = some req.Storage
    ∧ (name ≠ "" → ∀ s', (b.pathRolesWrite req d).storage = some s' →
        ∀ op path, b.pathRolesRead ⟨op, path, s'⟩ { name := some name } =
          Result.returned ((storedRole req.Storage name).map fun r =>
            { Data := r.toResponseData }) none s' b) := by
  have hw : b.pathRolesWrite req d =
      (if name = "" then
        Result.returned none (some "missing role name") req.Storage b
      else if (mergedRole req.Storage name d).Username = "" then
        Result.returned none (some "missing username in role") req.Storage b
      else
        Result.returned (some (ErrorResponse "ttl cannot be greater than max_ttl")) none
          req.Storage b) := by
    unfold exampleBackend.pathRolesWrite
    rw [hname]
    by_cases hn : name = ""
    · subst hn
      simp [getRole_empty_name]
    · simp only [getRole_eq_storedRole b req.Storage name hn, if_neg hn]
      have hm2 : applyRoleFields (match storedRole req.Storage name with
          | some re => re
          | none => {}) d = mergedRole req.Storage name d := by
        unfold mergedRole
        cases storedRole req.Storage name <;> rfl
      simp only [hm2]
      by_cases hu : (mergedRole req.Storage name d).Username = ""
      · simp [hu]
      · have hz : (mergedRole req.Storage name d).MaxTTL ≠ 0 := hmax.ne'
        simp [hu, hz, hgt]
  refine ⟨hw, ?_, ?_⟩
  · rw [hw]; split_ifs <;> rfl
  · intro hn s' hs' op path
    have : s' = req.Storage := by
      rw [hw] at hs'
      split_ifs at hs' <;> simp [Result.storage] at hs' <;> exact hs'.symm
    subst this
    unfold exampleBackend.pathRolesRead
    simp only [FieldData.Get_name, Option.getD_some]
    rw [getRole_eq_storedRole b req.Storage name hn]
    cases storedRole req.Storage name <;> rfl

/-- Witness of C1: role r1 with username svc-r1, ttl 100 and max_ttl 50 on the
empty storage meets the hypotheses, and the write leaves the storage empty. -/
theorem pathRolesWrite_ttl_above_max_rejected_witness :
    0 < (mergedRole r1Request.Storage "r1" r1FieldsWithUser).MaxTTL
    ∧ (mergedRole r1Request.Storage "r1" r1FieldsWithUser).MaxTTL
        < (mergedRole r1Request.Storage "r1" r1FieldsWithUser).TTL
    ∧ (backend.pathRolesWrite r1Request r1FieldsWithUser).storage = some r1Request.Storage :=
  ⟨by decide, by decide,
    (pathRolesWrite_ttl_above_max_rejected backend r1Request r1FieldsWithUser "r1" rfl
      (by decide) (by decide)).2.1⟩

/-- Counterexample to C1 as stated: scenario 4 (role r1, ttl 100, max_ttl 50, no
username, empty storage) has `max_ttl > 0` and `ttl > max_ttl`, yet the write
returns no response at all, only the error `missing username in role`. -/
theorem pathRolesWrite_scenario4_no_error_response :
    0 < (mergedRole r1Request.Storage "r1" r1Fields).MaxTTL
    ∧ (mergedRole r1Request.Storage "r1" r1Fields).MaxTTL
        < (mergedRole r1Request.Storage "r1" r1Fields).TTL
    ∧ backend.pathRolesWrite r1Request r1Fields =
        Result.returned none (some "missing username in role") Storage.empty backend
    ∧ (backend.pathRolesWrite r1Request r1Fields).resp = none
    ∧ ¬ (∃ resp, (backend.pathRolesWrite r1Request r1Fields).resp = some resp
          ∧ resp.IsError = true)
    ∧ backend.pathRolesRead ⟨Operation.ReadOperation, "role/r1", Storage.empty⟩
        { name := some "r1" } = Result.returned none none Storage.empty backend := by
  refine ⟨by decide, by decide, rfl, rfl, ?_, rfl⟩
  rintro ⟨resp, h, -⟩
  exact absurd h (by simp [show (backend.pathRolesWrite r1Request r1Fields).resp = none from rfl])

/-! ## Roles: writes that respect the lease bound -/

theorem secondsToDuration_inRange (v : Int) (h0 : 0 ≤ v) (h1 : v ≤ 9223372036) :
    secondsToDuration v = v * 1000000000 := by
  show ((v * 1000000000 + 9223372036854775808) % 18446744073709551616
    - 9223372036854775808 : Int) = v * 1000000000
  omega

theorem Seconds_secondsToDuration (v : Int) (h0 : 0 ≤ v) (h1 : v ≤ 9223372036) :
    Duration.Seconds (secondsToDuration v) = Value.seconds v 0 := by
  rw [secondsToDuration_inRange v h0 h1]
  show Value.seconds (Int.tdiv (v * 1000000000) 1000000000)
    (Int.tmod (v * 1000000000) 1000000000) = Value.seconds v 0
  rw [Int.mul_tdiv_cancel v (by decide), Int.mul_tmod_left]

theorem secondsToDuration_wraps :
    secondsToDuration 9223372037 = -9223372036709551616 := by
  decide

theorem applyRoleFields_Username (re : roleEntry) (d : FieldData) :
    (applyRoleFields re d).Username = d.username.getD re.Username := by
  unfold applyRoleFields
  cases d.username <;> cases d.ttl <;> cases d.max_ttl <;> rfl

theorem applyRoleFields_TTL (re : roleEntry) (d : FieldData) :
    (applyRoleFields re d).TTL = (d.ttl.map secondsToDuration).getD re.TTL := by
  unfold applyRoleFields
  cases d.username <;> cases d.ttl <;> cases d.max_ttl <;> rfl

theorem applyRoleFields_MaxTTL (re : roleEntry) (d : FieldData) :
    (applyRoleFields re d).MaxTTL = (d.max_ttl.map secondsToDuration).getD re.MaxTTL := by
  unfold applyRoleFields
  cases d.username <;> cases d.ttl <;> cases d.max_ttl <;> rfl

theorem pathRolesWrite_accepted (b : exampleBackend) (req : Request) (d : FieldData)
    (name : String) (hname : d.name = some name) (hne : name ≠ "")
    (huser : (mergedRole req.Storage name d).Username ≠ "")
    (hle : (mergedRole req.Storage name d).TTL ≤ (mergedRole req.Storage name d).MaxTTL
      ∨ (mergedRole req.Storage name d).MaxTTL = 0) :
    b.pathRolesWrite req d =
      Result.returned none none
        { data := fun k => if k = "role/" ++ name
                           then some (Document.role (mergedRole req.Storage name d))
                           else req.Storage.data k } b := by
  unfold exampleBackend.pathRolesWrite
  rw [hname]
  simp only [getRole_eq_storedRole b req.Storage name hne]
  have hm2 : applyRoleFields (match storedRole req.Storage name with
      | some re => re
      | none => {}) d = mergedRole req.Storage name d := by
    unfold mergedRole
    cases storedRole req.Storage name <;> rfl
  simp only [hm2, if_neg huser]
  have hc : ¬ ((mergedRole req.Storage name d).MaxTTL ≠ 0
      ∧ (mergedRole req.Storage name d).TTL > (mergedRole req.Storage name d).MaxTTL) := by
    rintro ⟨h1, h2⟩
    rcases hle with h | h
    · exact absurd h (not_le.mpr h2)
    · exact h1 h
  rw [if_neg hc]
  rfl

/-- C2. For a non-empty role name, a merged username that is not empty and
merged durations with `ttl <= max_ttl` or `max_ttl = 0`, `pathRolesWrite`
returns `nil, nil`, afterwards the merged role is the one stored, and
`pathRolesRead` of that name returns the merged username, ttl and max_ttl. A
supplied username is returned as supplied; a ttl or max_ttl supplied as v
seconds (v a value of a duration-second field, 0..9223372036) is reported
as v seconds exactly; a field that was not supplied keeps the value
of the previously stored role (the zero value when none was stored). -/
theorem pathRolesWrite_then_read (b : exampleBackend) (req : Request) (d : FieldData)
    (name : String) (hname : d.name = some name) (hne : name ≠ "")
    (huser : (mergedRole req.Storage name d).Username ≠ "")
    (hle : (mergedRole req.Storage name d).TTL ≤ (mergedRole req.Storage name d).MaxTTL
      ∨ (mergedRole req.Storage name d).MaxTTL = 0) :
    ∃ s', b.pathRolesWrite req d = Result.returned none none s' b
      ∧ storedRole s' name = some (mergedRole req.Storage name d)
      ∧ (∀ op path, b.pathRolesRead ⟨op, path, s'⟩ { name := some name } =
          Result.returned (some { Data :=
            [("ttl", Duration.Seconds (mergedRole req.Storage name d).TTL),
             ("max_ttl", Duration.Seconds (mergedRole req.Storage name d).MaxTTL),
             ("username", Value.str (mergedRole req.Storage name d).Username)] }) none s' b)
      ∧ (∀ u, d.username = some u → (mergedRole req.Storage name d).Username = u)
      ∧ (∀ v, d.ttl = some v → isDurationSecond v →
          Duration.Seconds (mergedRole req.Storage name d).TTL = Value.seconds v 0)
      ∧ (∀ v, d.max_ttl = some v → isDurationSecond v →
          Duration.Seconds (mergedRole req.Storage name d).MaxTTL = Value.seconds v 0)
      ∧ (d.username = none → (mergedRole req.Storage name d).Username
          = ((storedRole req.Storage name).getD {}).Username)
      ∧ (d.ttl = none → (mergedRole req.Storage name d).TTL
          = ((storedRole req.Storage name).getD {}).TTL)
      ∧ (d.max_ttl = none → (mergedRole req.Storage name d).MaxTTL
          = ((storedRole req.Storage name).getD {}).MaxTTL) := by
  refine ⟨_, pathRolesWrite_accepted b req d name hname hne huser hle, ?_, ?_, ?_, ?_, ?_,
    ?_, ?_, ?_⟩
  · rw [storedRole_put]; simp
  · intro op path
    unfold exampleBackend.pathRolesRead
    simp only [FieldData.Get_name, Option.getD_some]
    rw [getRole_eq_storedRole b _ name hne, storedRole_put]
    simp [roleEntry.toResponseData]
  · intro u hu
    simp [mergedRole, applyRoleFields_Username, hu]
  · intro v hv hr
    simp only [mergedRole, applyRoleFields_TTL, hv, Option.map_some', Option.getD_some]
    exact Seconds_secondsToDuration v hr.1 hr.2
  · intro v hv hr
    simp only [mergedRole, applyRoleFields_MaxTTL, hv, Option.map_some', Option.getD_some]
    exact Seconds_secondsToDuration v hr.1 hr.2
  · intro hu
    simp [mergedRole, applyRoleFields_Username, hu]
  · intro hu
    simp [mergedRole, applyRoleFields_TTL, hu]
  · intro hu
    simp [mergedRole, applyRoleFields_MaxTTL, hu]

/-- Witness of C2: scenario 1's role (reader, svc-reader, ttl 3600, max_ttl
7200) written to the empty storage is stored and read back as 3600 and 7200
seconds. -/
theorem pathRolesWrite_then_read_witness :
    (mergedRole readerRequest.Storage "reader" readerFields).Username ≠ ""
    ∧ ((mergedRole readerRequest.Storage "reader" readerFields).TTL
          ≤ (mergedRole readerRequest.Storage "reader" readerFields).MaxTTL
        ∨ (mergedRole readerRequest.Storage "reader" readerFields).MaxTTL = 0)
    ∧ ∃ s', backend.pathRolesWrite readerRequest readerFields
          = Result.returned none none s' backend
        ∧ storedRole s' "reader" = some readerRole
        ∧ backend.pathRolesRead ⟨Operation.ReadOperation, "role/reader", s'⟩
            { name := some "reader" }
          = Result.returned (some { Data :=
              [("ttl", Value.seconds 3600 0), ("max_ttl", Value.seconds 7200 0),
               ("username", Value.str "svc-reader")] }) none s' backend := by
  have hm : mergedRole readerRequest.Storage "reader" readerFields = readerRole := by decide
  obtain ⟨s', h1, h2, h3, -, h5, h6, -⟩ :=
    pathRolesWrite_then_read backend readerRequest readerFields "reader" rfl (by decide)
      (by decide) (by decide)
  refine ⟨by decide, by decide, s', h1, ?_, ?_⟩
  · rw [h2, hm]
  · rw [h3, h5 3600 rfl ⟨by decide, by decide⟩, h6 7200 rfl ⟨by decide, by decide⟩, hm]
    rfl

/-! ## Configuration: merge, validate, store, read -/

theorem pathConfigWrite_eq (b : exampleBackend) (req : Request) (data : FieldData) :
    b.pathConfigWrite req data =
      (if storedConfig req.Storage = none ∧ req.Operation ≠ Operation.CreateOperation then
        Result.returned none (some "config not found during update operation") req.Storage b
      else if (mergedConfig req.Storage data).Username = "" then
        Result.returned none (some "missing username in configuration") req.Storage b
      else if (mergedConfig req.Storage data).Password = "" then
        Result.returned none (some "missing password in configuration") req.Storage b
      else if (mergedConfig req.Storage data).URL = "" then
        Result.returned none (some "missing url in configuration") req.Storage b
      else
        Result.returned none none
          { data := fun k => if k = configStoragePath
                             then some (Document.config (mergedConfig req.Storage data))
                             else req.Storage.data k } b.reset) := by
  unfold exampleBackend.pathConfigWrite mergedConfig
  simp only [getConfig_eq_storedConfig]
  cases hs : storedConfig req.Storage with
  | none =>
    by_cases hop : req.Operation = Operation.CreateOperation
    · simp only [hop, ne_eq, not_true_eq_false, if_false, and_false, Option.getD_none]
      split_ifs <;> rfl
    · simp [hop]
  | some c =>
    simp only [Option.getD_some, false_and, if_false]
    split_ifs <;> first | rfl | simp_all

theorem storedConfig_put (s : Storage) (c : config) :
    storedConfig { data := fun k => if k = configStoragePath then some (Document.config c)
                                    else s.data k } = some c := by
  simp [storedConfig]

theorem pathConfigWrite_succeeded (b : exampleBackend) (req : Request) (data : FieldData)
    (hs : (b.pathConfigWrite req data).succeeded = true) :
    b.pathConfigWrite req data = Result.returned none none
      { data := fun k => if k = configStoragePath
                         then some (Document.config (mergedConfig req.Storage data))
                         else req.Storage.data k } b.reset := by
  rw [pathConfigWrite_eq] at hs ⊢
  split_ifs at hs ⊢ <;> first | rfl | simp [Result.succeeded] at hs

theorem priorConfig_eq (s : Storage) : priorConfig s = (storedConfig s).getD {} := by
  unfold priorConfig storedConfig
  cases s.data configStoragePath with
  | none => rfl
  | some v => cases v <;> rfl

theorem mergedConfig_eq (s : Storage) (data : FieldData) :
    mergedConfig s data =
      { Username := data.username.getD (priorConfig s).Username,
        Password := data.password.getD (priorConfig s).Password,
        URL := data.url.getD (priorConfig s).URL } := by
  rw [priorConfig_eq]
  unfold mergedConfig applyConfigFields
  cases data.username <;> cases data.password <;> cases data.url <;> rfl

theorem pathConfigWrite_outcome (b : exampleBackend) (req : Request)
    (data : FieldData) :
    ((b.pathConfigWrite req data).succeeded = true ↔
      ((storedConfig req.Storage ≠ none ∨ req.Operation = Operation.CreateOperation)
        ∧ (mergedConfig req.Storage data).Username ≠ ""
        ∧ (mergedConfig req.Storage data).Password ≠ ""
        ∧ (mergedConfig req.Storage data).URL ≠ ""))
    ∧ ((b.pathConfigWrite req data).succeeded = false →
        ∃ err, b.pathConfigWrite req data = Result.returned none (some err) req.Storage b)
    ∧ ((b.pathConfigWrite req data).succeeded = true →
        ∃ s', b.pathConfigWrite req data = Result.returned none none s' b.reset
          ∧ storedConfig s' = some (mergedConfig req.Storage data)
          ∧ ∀ k, k ≠ configStoragePath → s'.data k = req.Storage.data k) := by
  rw [pathConfigWrite_eq]
  by_cases h0 : storedConfig req.Storage = none ∧ req.Operation ≠ Operation.CreateOperation
  · rw [if_pos h0]
    refine ⟨?_, fun _ => ⟨_, rfl⟩, fun h => by simp [Result.succeeded] at h⟩
    constructor
    · intro h; simp [Result.succeeded] at h
    · rintro ⟨h1 | h1, -⟩
      · exact absurd h0.1 h1
      · exact absurd h1 h0.2
  · rw [if_neg h0]
    have hl : storedConfig req.Storage ≠ none ∨ req.Operation = Operation.CreateOperation := by
      by_contra hc
      push_neg at hc
      exact h0 hc
    by_cases h1 : (mergedConfig req.Storage data).Username = ""
    · rw [if_pos h1]
      refine ⟨?_, fun _ => ⟨_, rfl⟩, fun h => by simp [Result.succeeded] at h⟩
      constructor
      · intro h; simp [Result.succeeded] at h
      · rintro ⟨-, h, -⟩; exact absurd h1 h
    · rw [if_neg h1]
      by_cases h2 : (mergedConfig req.Storage data).Password = ""
      · rw [if_pos h2]
        refine ⟨?_, fun _ => ⟨_, rfl⟩, fun h => by simp [Result.succeeded] at h⟩
        constructor
        · intro h; simp [Result.succeeded] at h
        · rintro ⟨-, -, h, -⟩; exact absurd h2 h
      · rw [if_neg h2]
        by_cases h3 : (mergedConfig req.Storage data).URL = ""
        · rw [if_pos h3]
          refine ⟨?_, fun _ => ⟨_, rfl⟩, fun h => by simp [Result.succeeded] at h⟩
          constructor
          · intro h; simp [Result.succeeded] at h
          · rintro ⟨-, -, -, h⟩; exact absurd h3 h
        · rw [if_neg h3]
          refine ⟨⟨fun _ => ⟨hl, h1, h2, h3⟩, fun _ => rfl⟩,
            fun h => by simp [Result.succeeded] at h, fun _ => ⟨_, rfl, ?_, ?_⟩⟩
          · exact storedConfig_put _ _
          · intro k hk
            simp [hk]

/-- C4. The merged configuration of `pathConfigWrite` has, field by field, the
supplied value when the request supplies one and otherwise the value of the
stored configuration, or of a blank one when none is stored. The write
succeeds exactly when a configuration is stored or the operation is a create,
and the merged username, password and url are all non-empty. When it does not
succeed it returns an error and leaves the storage and the backend as they
were; when it succeeds it returns `nil, nil`, the key `config` holds the
merged configuration and no other key has changed. -/
theorem pathConfigWrite_merge_validate_store (b : exampleBackend) (req : Request)
    (data : FieldData) :
    mergedConfig req.Storage data =
        { Username := data.username.getD (priorConfig req.Storage).Username,
          Password := data.password.getD (priorConfig req.Storage).Password,
          URL := data.url.getD (priorConfig req.Storage).URL }
    ∧ (∀ u, data.username = some u → (mergedConfig req.Storage data).Username = u)
    ∧ (∀ p, data.password = some p → (mergedConfig req.Storage data).Password = p)
    ∧ (∀ u, data.url = some u → (mergedConfig req.Storage data).URL = u)
    ∧ (data.username = none →
        (mergedConfig req.Storage data).Username = (priorConfig req.Storage).Username)
    ∧ (data.password = none →
        (mergedConfig req.Storage data).Password = (priorConfig req.Storage).Password)
    ∧ (data.url = none →
        (mergedConfig req.Storage data).URL = (priorConfig req.Storage).URL)
    ∧ ((b.pathConfigWrite req data).succeeded = true ↔
      ((storedConfig req.Storage ≠ none ∨ req.Operation = Operation.CreateOperation)
        ∧ (mergedConfig req.Storage data).Username ≠ ""
        ∧ (mergedConfig req.Storage data).Password ≠ ""
        ∧ (mergedConfig req.Storage data).URL ≠ ""))
    ∧ ((b.pathConfigWrite req data).succeeded = false →
        ∃ err, b.pathConfigWrite req data = Result.returned none (some err) req.Storage b)
    ∧ ((b.pathConfigWrite req data).succeeded = true →
        ∃ s', b.pathConfigWrite req data = Result.returned none none s' b.reset
          ∧ storedConfig s' = some (mergedConfig req.Storage data)
          ∧ s'.data configStoragePath = some (Document.config
              { Username := data.username.getD (priorConfig req.Storage).Username,
                Password := data.password.getD (priorConfig req.Storage).Password,
                URL := data.url.getD (priorConfig req.Storage).URL })
          ∧ ∀ k, k ≠ configStoragePath → s'.data k = req.Storage.data k) := by
  have hm := mergedConfig_eq req.Storage data
  obtain ⟨h1, h2, h3⟩ := pathConfigWrite_outcome b req data
  refine ⟨hm, ?_, ?_, ?_, ?_, ?_, ?_, h1, h2, ?_⟩
  · intro u hu; rw [hm]; simp [hu]
  · intro u hu; rw [hm]; simp [hu]
  · intro u hu; rw [hm]; simp [hu]
  · intro hu; rw [hm]; simp [hu]
  · intro hu; rw [hm]; simp [hu]
  · intro hu; rw [hm]; simp [hu]
  · intro hs
    have hw := pathConfigWrite_succeeded b req data hs
    refine ⟨_, hw, storedConfig_put _ _, ?_, ?_⟩
    · simp [hm]
    · intro k hk
      simp [hk]

/-- C3. After a `pathConfigWrite` that succeeded, `pathConfigRead` returns a
response whose data are exactly `username` and `url`. Each of the two holds
the value the write supplied, or, when the write did not supply it, the value
of the configuration stored before the write; these are the values of the
merged configuration. Nothing is stored under `password`, and the response is
the same whatever password the stored configuration holds. -/
theorem pathConfigRead_after_write (b : exampleBackend) (req : Request) (data : FieldData)
    (hs : (b.pathConfigWrite req data).succeeded = true) :
    ∃ s' b', b.pathConfigWrite req data = Result.returned none none s' b'
      ∧ ∀ op path d', ∃ resp,
          b'.pathConfigRead ⟨op, path, s'⟩ d' = Result.returned (some resp) none s' b'
          ∧ resp.Data =
              [("username", Value.str (data.username.getD (priorConfig req.Storage).Username)),
               ("url", Value.str (data.url.getD (priorConfig req.Storage).URL))]
          ∧ (∀ u, data.username = some u → resp.Data.lookup "username" = some (Value.str u))
          ∧ (∀ u, data.url = some u → resp.Data.lookup "url" = some (Value.str u))
          ∧ (data.username = none → resp.Data.lookup "username"
              = some (Value.str (priorConfig req.Storage).Username))
          ∧ (data.url = none → resp.Data.lookup "url"
              = some (Value.str (priorConfig req.Storage).URL))
          ∧ resp.Data = [("username", Value.str (mergedConfig req.Storage data).Username),
                         ("url", Value.str (mergedConfig req.Storage data).URL)]
          ∧ resp.Data.map Prod.fst = ["username", "url"]
          ∧ resp.Data.lookup "password" = none
          ∧ resp.Secret = none
          ∧ ∀ p, (b'.pathConfigRead ⟨op, path,
                { data := fun k => if k = configStoragePath
                    then some (Document.config
                      { mergedConfig req.Storage data with Password := p })
                    else s'.data k }⟩ d').resp = some resp := by
  have hw := pathConfigWrite_succeeded b req data hs
  have hc := storedConfig_put req.Storage (mergedConfig req.Storage data)
  have hm := mergedConfig_eq req.Storage data
  refine ⟨_, b.reset, hw, ?_⟩
  intro op path d'
  refine ⟨{ Data := [("username", Value.str (mergedConfig req.Storage data).Username),
                     ("url", Value.str (mergedConfig req.Storage data).URL)] }, ?_, ?_, ?_, ?_,
    ?_, ?_, rfl, rfl, ?_, rfl, ?_⟩
  · unfold exampleBackend.pathConfigRead
    simp only [getConfig_eq_storedConfig, hc]
  · simp [hm]
  · intro u hu
    simp [hm, hu, List.lookup]
  · intro u hu
    simp [hm, hu, List.lookup]
  · intro hu
    simp [hm, hu, List.lookup]
  · intro hu
    simp [hm, hu, List.lookup]
  · simp [List.lookup]
  · intro p
    unfold exampleBackend.pathConfigRead
    simp only [getConfig_eq_storedConfig, storedConfig_put]
    rfl

/-- Witness of C3: an update that supplies only a new url, on scenario 1's
stored configuration, succeeds and is read back as the stored username alice
and the new url, without the password. -/
theorem pathConfigRead_after_write_witness :
    (backend.pathConfigWrite configUpdateRequest newUrlFields).succeeded = true
    ∧ ∃ s' b', backend.pathConfigWrite configUpdateRequest newUrlFields
          = Result.returned none none s' b'
        ∧ b'.pathConfigRead ⟨Operation.ReadOperation, "config", s'⟩ {}
          = Result.returned (some { Data := [("username", Value.str "alice"),
              ("url", Value.str "https://new.example.com")] }) none s' b' := by
  refine ⟨rfl, ?_⟩
  obtain ⟨s', b', hw, hr⟩ :=
    pathConfigRead_after_write backend configUpdateRequest newUrlFields rfl
  refine ⟨s', b', hw, ?_⟩
  obtain ⟨resp, h1, h2, -, -, -, -, -, -, -, h5, -⟩ := hr Operation.ReadOperation "config" {}
  rw [h1]
  have : resp = { Data := [("username", Value.str "alice"),
      ("url", Value.str "https://new.example.com")] } := by
    cases resp
    simp only [Response.mk.injEq]
    exact ⟨h5, h2⟩
  rw [this]

/-! ## Client cache -/

theorem getClient_uncached (b : exampleBackend) (s : Storage) (h : b.client = none) :
    (b.getClient s).1 = .error "need to return client" ∧ (b.getClient s).2.client = none := by
  unfold exampleBackend.getClient
  simp [h]

/-- C5 at its failing input: with no client cached and scenario 1's valid
configuration stored, `getClient` returns the error `need to return client`
and leaves the client field empty, although `newClient` accepts that
configuration. A cached client is returned as it is. -/
theorem getClient_constructs_nothing :
    storedConfig aliceStorage = some aliceConfig
    ∧ newClient (storedConfig aliceStorage) = .ok {}
    ∧ (backend.getClient aliceStorage).1 = .error "need to return client"
    ∧ (backend.getClient aliceStorage).2.client = none
    ∧ (cachedBackend.getClient aliceStorage).1 = .ok {} :=
  ⟨rfl, rfl, rfl, rfl, rfl⟩

/-- Latent defect of `reset`: it leaves the client field as it is, so a
backend that did hold a client would still hold it after `invalidate` with
key config, after a successful `pathConfigWrite` and after a successful
`pathConfigDelete`. -/
theorem reset_keeps_cached_client :
    (cachedBackend.invalidate "config").client = some {}
    ∧ cachedBackend.pathConfigWrite configCreateRequest aliceFields
        = Result.returned none none aliceStorage cachedBackend
    ∧ (cachedBackend.pathConfigDelete ⟨Operation.DeleteOperation, "config", aliceStorage⟩
        {}).backend = some cachedBackend
    ∧ (cachedBackend.pathConfigDelete ⟨Operation.DeleteOperation, "config", aliceStorage⟩
        {}).succeeded = true
    ∧ ((cachedBackend.invalidate "config").getClient aliceStorage).1 = .ok {} :=
  ⟨rfl, rfl, rfl, rfl, rfl⟩

theorem reset_eq (b : exampleBackend) : b.reset = b := rfl

theorem invalidate_eq (b : exampleBackend) (key : String) : b.invalidate key = b := by
  unfold exampleBackend.invalidate exampleBackend.reset
  split_ifs <;> rfl

theorem getClient_client (b : exampleBackend) (s : Storage) :
    (b.getClient s).2.client = b.client := by
  unfold exampleBackend.getClient
  cases b.client <;> rfl

theorem createToken_client (b : exampleBackend) (createToken : SignIn) (s : Storage)
    (role : roleEntry) : (b.createToken createToken s role).2.client = b.client := by
  unfold exampleBackend.createToken
  have h := getClient_client b s
  rcases hg : b.getClient s with ⟨r, b1⟩
  rw [hg] at h
  cases r with
  | error err => exact h
  | ok client =>
    simp only
    cases createToken client role.Username with
    | error err => exact h
    | ok t => cases t <;> exact h

theorem createUserCreds_client (b : exampleBackend) (createToken : SignIn)
    (tokenSecret : FrameworkSecret) (req : Request) (role : roleEntry) (b' : exampleBackend)
    (h : (b.createUserCreds createToken tokenSecret req role).backend = some b') :
    b'.client = b.client := by
  unfold exampleBackend.createUserCreds at h
  have hc := createToken_client b createToken req.Storage role
  rcases hg : b.createToken createToken req.Storage role with ⟨r, b1⟩
  rw [hg] at h hc
  cases r <;> simp only [Result.backend, Option.some.injEq] at h <;> rw [← h] <;> exact hc

theorem pathCredentialsRead_client (b : exampleBackend) (createToken : SignIn)
    (tokenSecret : FrameworkSecret) (req : Request) (d : FieldData) (b' : exampleBackend)
    (h : (b.pathCredentialsRead createToken tokenSecret req d).backend = some b') :
    b'.client = b.client := by
  unfold exampleBackend.pathCredentialsRead at h
  simp only at h
  cases hg : b.getRole req.Storage d.Get_name with
  | error err =>
    rw [hg] at h
    simp only [Result.backend, Option.some.injEq] at h
    rw [← h]
  | ok r =>
    rw [hg] at h
    cases r with
    | none =>
      simp only [Result.backend, Option.some.injEq] at h
      rw [← h]
    | some role => exact createUserCreds_client b createToken tokenSecret req role b' h

theorem pathConfigRead_backend (b : exampleBackend) (req : Request) (d : FieldData)
    (b' : exampleBackend) (h : (b.pathConfigRead req d).backend = some b') : b' = b := by
  unfold exampleBackend.pathConfigRead at h
  simp only [getConfig_eq_storedConfig] at h
  cases hc : storedConfig req.Storage with
  | none => rw [hc] at h; simp [Result.backend] at h
  | some c => rw [hc] at h; simp only [Result.backend, Option.some.injEq] at h; exact h.symm

theorem pathConfigWrite_backend (b : exampleBackend) (req : Request) (d : FieldData)
    (b' : exampleBackend) (h : (b.pathConfigWrite req d).backend = some b') : b' = b := by
  rw [pathConfigWrite_eq] at h
  split_ifs at h <;> simp only [Result.backend, Option.some.injEq] at h <;> exact h.symm

theorem pathConfigDelete_backend (b : exampleBackend) (req : Request) (d : FieldData)
    (b' : exampleBackend) (h : (b.pathConfigDelete req d).backend = some b') : b' = b := by
  unfold exampleBackend.pathConfigDelete Storage.Delete at h
  simp only [Result.backend, Option.some.injEq] at h
  exact h.symm

theorem pathRolesRead_backend (b : exampleBackend) (req : Request) (d : FieldData)
    (b' : exampleBackend) (h : (b.pathRolesRead req d).backend = some b') : b' = b := by
  unfold exampleBackend.pathRolesRead at h
  cases hg : b.getRole req.Storage d.Get_name with
  | error err => rw [hg] at h; simp only [Result.backend, Option.some.injEq] at h; exact h.symm
  | ok r =>
    rw [hg] at h
    cases r <;> simp only [Result.backend, Option.some.injEq] at h <;> exact h.symm

theorem pathRolesWrite_backend (b : exampleBackend) (req : Request) (d : FieldData)
    (b' : exampleBackend) (h : (b.pathRolesWrite req d).backend = some b') : b' = b := by
  unfold exampleBackend.pathRolesWrite at h
  cases hn : d.name with
  | none => rw [hn] at h; simp only [Result.backend, Option.some.injEq] at h; exact h.symm
  | some name =>
    rw [hn] at h
    simp only at h
    cases hg : b.getRole req.Storage name with
    | error err => rw [hg] at h; simp only [Result.backend, Option.some.injEq] at h; exact h.symm
    | ok stored =>
      rw [hg] at h
      simp only at h
      split_ifs at h <;>
        simp only [StorageEntryJSON_role, Storage.Put, Result.backend, Option.some.injEq] at h <;>
        exact h.symm

theorem pathRolesDelete_backend (b : exampleBackend) (req : Request) (d : FieldData)
    (b' : exampleBackend) (h : (b.pathRolesDelete req d).backend = some b') : b' = b := by
  unfold exampleBackend.pathRolesDelete Storage.Delete at h
  simp only [Result.backend, Option.some.injEq] at h
  exact h.symm

theorem reachable_client_none (b : exampleBackend) (hb : BackendReachable b) :
    b.client = none := by
  induction hb with
  | fresh => rfl
  | invalidate b key _ ih => rw [invalidate_eq]; exact ih
  | getClient b s _ ih => rw [getClient_client]; exact ih
  | pathConfigRead b req d b' _ h ih => rw [pathConfigRead_backend b req d b' h]; exact ih
  | pathConfigWrite b req d b' _ h ih => rw [pathConfigWrite_backend b req d b' h]; exact ih
  | pathConfigDelete b req d b' _ h ih => rw [pathConfigDelete_backend b req d b' h]; exact ih
  | pathRolesRead b req d b' _ h ih => rw [pathRolesRead_backend b req d b' h]; exact ih
  | pathRolesWrite b req d b' _ h ih => rw [pathRolesWrite_backend b req d b' h]; exact ih
  | pathRolesDelete b req d b' _ h ih => rw [pathRolesDelete_backend b req d b' h]; exact ih
  | pathCredentialsRead b createToken tokenSecret req d b' _ h ih =>
    rw [pathCredentialsRead_client b createToken tokenSecret req d b' h]; exact ih

/-- C6. On every backend reachable from `backend()` through `invalidate`,
`getClient` and the request handlers, the client field is absent after a
successful `pathConfigWrite`, after a successful `pathConfigDelete` and after
`invalidate` with key config, and the next `getClient` returns no client but
the error `need to return client`. (No code path of the package assigns the
field, so it is absent before the change too; `reset` itself assigns
nothing.) -/
theorem config_change_leaves_no_client (b : exampleBackend) (hb : BackendReachable b) :
    (∀ req data, (b.pathConfigWrite req data).succeeded = true →
      ∃ s' b', b.pathConfigWrite req data = Result.returned none none s' b'
        ∧ b'.client = none
        ∧ ∀ s, (b'.getClient s).1 = .error "need to return client")
    ∧ (∀ req data, (b.pathConfigDelete req data).succeeded = true →
      ∃ s' b', b.pathConfigDelete req data = Result.returned none none s' b'
        ∧ b'.client = none
        ∧ ∀ s, (b'.getClient s).1 = .error "need to return client")
    ∧ (b.invalidate "config").client = none
    ∧ (∀ s, ((b.invalidate "config").getClient s).1 = .error "need to return client") := by
  have hc := reachable_client_none b hb
  refine ⟨?_, ?_, ?_, ?_⟩
  · intro req data hs
    refine ⟨_, b.reset, pathConfigWrite_succeeded b req data hs, hc, ?_⟩
    intro s
    exact (getClient_uncached b.reset s hc).1
  · intro req data _
    refine ⟨_, b.reset, rfl, hc, ?_⟩
    intro s
    exact (getClient_uncached b.reset s hc).1
  · rw [invalidate_eq]; exact hc
  · intro s
    rw [invalidate_eq]
    exact (getClient_uncached b s hc).1

/-- Witness of C6: the backend left by a credentials request on a fresh
backend is reachable; after scenario 1's configuration write on it and after
`invalidate` with key config no client is cached. -/
theorem config_change_leaves_no_client_witness :
    BackendReachable backendAfterCreds
    ∧ (∃ s' b', backendAfterCreds.pathConfigWrite configCreateRequest aliceFields
          = Result.returned none none s' b'
        ∧ b'.client = none
        ∧ ∀ s, (b'.getClient s).1 = .error "need to return client")
    ∧ (backendAfterCreds.invalidate "config").client = none :=
  have hr : BackendReachable backendAfterCreds :=
    BackendReachable.pathCredentialsRead backend signInOk {}
      ⟨Operation.ReadOperation, "creds/reader", scenario1Storage⟩ { name := some "reader" }
      backendAfterCreds BackendReachable.fresh rfl
  ⟨hr, (config_change_leaves_no_client backendAfterCreds hr).1 configCreateRequest aliceFields
      rfl,
    (config_change_leaves_no_client backendAfterCreds hr).2.2.1⟩

/-! ## Credential issuance -/

theorem createUserCreds_resp_none (b : exampleBackend) (createToken : SignIn)
    (tokenSecret : FrameworkSecret) (req : Request) (role : roleEntry) :
    (b.createUserCreds createToken tokenSecret req role).resp = none := by
  unfold exampleBackend.createUserCreds
  split <;> rfl

/-- C7 at its failing input: in scenario 1 (configuration and role reader
stored) `pathCredentialsRead` returns no response but the error
`need to return client`; and when a client is cached and the sign-in succeeds,
`createUserCreds` returns `nil, nil`, dropping the response it assembled with
ttl 3600 s and max_ttl 7200 s. -/
theorem pathCredentialsRead_scenario1_no_response :
    backend.pathConfigWrite configCreateRequest aliceFields
      = Result.returned none none aliceStorage backend
    ∧ backend.pathRolesWrite ⟨Operation.CreateOperation, "role/reader", aliceStorage⟩ readerFields
      = Result.returned none none scenario1Storage backend
    ∧ backend.pathCredentialsRead signInOk {}
        ⟨Operation.ReadOperation, "creds/reader", scenario1Storage⟩ { name := some "reader" }
      = Result.returned none (some "need to return client") scenario1Storage
          { client := none, calls := [Call.getClient] }
    ∧ cachedBackend.pathCredentialsRead signInOk {}
        ⟨Operation.ReadOperation, "creds/reader", scenario1Storage⟩ { name := some "reader" }
      = Result.returned none none scenario1Storage
          { client := some {}, calls := [Call.createToken "svc-reader", Call.getClient] }
    ∧ (credsResponse {} ⟨"tok-1", "id-1", "7", "svc-reader"⟩ readerRole).Secret.map
          (fun x => (x.TTL, x.MaxTTL))
        = some (3600000000000, 7200000000000) :=
  ⟨rfl, rfl, rfl, rfl, rfl⟩

/-- C8 at its failing input: with nothing stored, `pathConfigRead` does not
return; it dereferences the nil configuration and panics. -/
theorem pathConfigRead_unset_panics :
    getConfig Storage.empty = .ok none
    ∧ backend.pathConfigRead ⟨Operation.ReadOperation, "config", Storage.empty⟩ {}
      = Result.panicked "runtime error: invalid memory address or nil pointer dereference" :=
  ⟨rfl, rfl⟩

theorem pathConfigRead_absent_panics (b : exampleBackend) (req : Request) (data : FieldData)
    (h : storedConfig req.Storage = none) :
    b.pathConfigRead req data
      = Result.panicked "runtime error: invalid memory address or nil pointer dereference" := by
  unfold exampleBackend.pathConfigRead
  simp only [getConfig_eq_storedConfig, h]

/-- C9. When nothing is stored under `role/name` for the requested name (the
empty name included), `pathCredentialsRead` returns no response and an error,
leaves the storage as it was, and leaves the backend as it was: no
`getClient` call and no sign-in is added to its record of calls. -/
theorem pathCredentialsRead_unknown_role (b : exampleBackend) (createToken : SignIn)
    (tokenSecret : FrameworkSecret) (req : Request) (d : FieldData)
    (hnone : req.Storage.data ("role/" ++ d.Get_name) = none) :
    b.pathCredentialsRead createToken tokenSecret req d =
      Result.returned none
        (some (if d.Get_name = "" then "error retrieving role: missing role name"
               else "error retrieving role: role is nil")) req.Storage b
    ∧ (b.pathCredentialsRead createToken tokenSecret req d).resp = none
    ∧ (b.pathCredentialsRead createToken tokenSecret req d).err ≠ none
    ∧ (b.pathCredentialsRead createToken tokenSecret req d).storage = some req.Storage
    ∧ (b.pathCredentialsRead createToken tokenSecret req d).backend.map exampleBackend.calls
        = some b.calls := by
  have h : b.pathCredentialsRead createToken tokenSecret req d =
      Result.returned none
        (some (if d.Get_name = "" then "error retrieving role: missing role name"
               else "error retrieving role: role is nil")) req.Storage b := by
    unfold exampleBackend.pathCredentialsRead
    by_cases hn : d.Get_name = ""
    · simp only [hn, getRole_empty_name, if_true]
      rfl
    · have hs : storedRole req.Storage d.Get_name = none := by
        simp [storedRole, hnone]
      simp only [getRole_eq_storedRole b req.Storage _ hn, hs, if_neg hn]
  refine ⟨h, ?_, ?_, ?_, ?_⟩ <;> rw [h] <;> simp [Result.resp, Result.err, Result.storage,
    Result.backend]

/-- Witness of C9: scenario 2, credentials for the role ghost, which was never
written, requested against scenario 1's storage with a cached client. -/
theorem pathCredentialsRead_unknown_role_witness :
    scenario1Storage.data ("role/" ++ "ghost") = none
    ∧ cachedBackend.pathCredentialsRead signInOk {}
        ⟨Operation.ReadOperation, "creds/ghost", scenario1Storage⟩ { name := some "ghost" }
      = Result.returned none (some "error retrieving role: role is nil") scenario1Storage
          cachedBackend :=
  ⟨by decide,
    (pathCredentialsRead_unknown_role cachedBackend signInOk {}
      ⟨Operation.ReadOperation, "creds/ghost", scenario1Storage⟩ { name := some "ghost" }
      (by decide)).1⟩

/-! ## Roles: the lease bound is an invariant of the storage -/

theorem pathRolesWrite_storage (b : exampleBackend) (req : Request) (d : FieldData)
    (s' : Storage) (h : (b.pathRolesWrite req d).storage = some s') :
    s' = req.Storage ∨ ∃ name re, re.WellFormed
      ∧ s' = { data := fun k => if k = "role/" ++ name then some (Document.role re)
                                else req.Storage.data k } := by
  unfold exampleBackend.pathRolesWrite at h
  cases hn : d.name with
  | none =>
    rw [hn] at h
    simp only [Result.storage, Option.some.injEq] at h
    exact Or.inl h.symm
  | some name =>
    rw [hn] at h
    simp only at h
    cases hg : b.getRole req.Storage name with
    | error err =>
      rw [hg] at h
      simp only [Result.storage, Option.some.injEq] at h
      exact Or.inl h.symm
    | ok stored =>
      rw [hg] at h
      simp only at h
      split_ifs at h with h1 h2
      · simp only [Result.storage, Option.some.injEq] at h
        exact Or.inl h.symm
      · simp only [Result.storage, Option.some.injEq] at h
        exact Or.inl h.symm
      · simp only [StorageEntryJSON_role, Storage.Put, Result.storage, Option.some.injEq] at h
        refine Or.inr ⟨name, _, ⟨h1, ?_⟩, h.symm⟩
        intro hmax httl
        by_contra hc
        exact h2 ⟨hmax.ne', not_le.mp hc⟩

theorem pathRolesDelete_storage (b : exampleBackend) (req : Request) (d : FieldData)
    (s' : Storage) (h : (b.pathRolesDelete req d).storage = some s') :
    s' = { data := fun k => if k = "role/" ++ d.Get_name then none
                            else req.Storage.data k } := by
  unfold exampleBackend.pathRolesDelete at h
  simp only [Storage.Delete, Result.storage, Option.some.injEq] at h
  exact h.symm

/-- C10. In every storage state reachable from the empty storage by role
writes and role deletes, whatever a key holds is a role entry with a
non-empty username and, when `max_ttl > 0` and `ttl > 0`, with
`ttl <= max_ttl` on the stored durations. -/
theorem roles_reachable_wellFormed (s : Storage) (hs : RolesReachable s) (key : String)
    (doc : Document) (hk : s.data key = some doc) :
    ∃ r, doc = Document.role r ∧ r.Username ≠ ""
      ∧ (0 < r.MaxTTL → 0 < r.TTL → r.TTL ≤ r.MaxTTL) := by
  induction hs generalizing key doc with
  | empty => simp [Storage.empty] at hk
  | write b req d s' _ hw ih =>
    rcases pathRolesWrite_storage b req d s' hw with h | ⟨name, re, hre, h⟩
    · subst h
      exact ih key doc hk
    · subst h
      simp only at hk
      by_cases hkey : key = "role/" ++ name
      · rw [if_pos hkey] at hk
        exact ⟨re, (Option.some.inj hk).symm, hre.1, hre.2⟩
      · rw [if_neg hkey] at hk
        exact ih key doc hk
  | delete b req d s' _ hw ih =>
    have h := pathRolesDelete_storage b req d s' hw
    subst h
    simp only at hk
    by_cases hkey : key = "role/" ++ d.Get_name
    · rw [if_pos hkey] at hk
      exact absurd hk (by simp)
    · rw [if_neg hkey] at hk
      exact ih key doc hk

/-- Witness of C10: the storage left by writing scenario 1's role to the empty
storage is reachable and holds that role under `role/reader`. -/
theorem roles_reachable_wellFormed_witness :
    RolesReachable { data := fun k => if k = "role/" ++ "reader"
                       then some (Document.role readerRole) else Storage.empty.data k }
    ∧ ∃ r, Document.role readerRole = Document.role r ∧ r.Username ≠ ""
        ∧ (0 < r.MaxTTL → 0 < r.TTL → r.TTL ≤ r.MaxTTL) :=
  ⟨RolesReachable.write backend readerRequest readerFields _ RolesReachable.empty rfl,
    roles_reachable_wellFormed _
      (RolesReachable.write backend readerRequest readerFields _ RolesReachable.empty rfl)
      "role/reader" (Document.role readerRole) rfl⟩

end VaultPlugin
